import Mathlib

/-
  Verification development for the meh-utils-rust vector-tile pipeline.

  The embedding translates the Rust sources in src/ into Lean definitions.
  The coordinate scalar (MvtGeoFloatType = f32 in src/src/mvt/mod.rs) is
  embedded as the exact rationals ℚ: the claims under scrutiny concern the
  algebraic content of the coordinate transforms (multiplications,
  subtractions and divisions by powers of two, all exact in binary floating
  point at the claims' inputs), not floating-point rounding.
  External crates (geo's line_intersection, the geo_clipper polygon
  intersection, the contour marching-squares builder) are modelled as
  explicit parameters of the functions that call them, so every theorem
  about repository code quantifies over those collaborators.
-/

namespace MehUtils

/-- Coordinate pair, mirroring geo::Coordinate with MvtGeoFloatType = f32
(src/src/mvt/mod.rs line 17), embedded over an arbitrary scalar. -/
abbrev Coord (α : Type) := α × α

/-- Mirrors geo::Line (a two-point segment). The field `stop` stands for the
Rust field `end`, which is a reserved word in Lean. -/
structure Line (α : Type) where
  start : Coord α
  stop : Coord α
deriving Repr, DecidableEq

/-- Mirrors geo::Polygon: one exterior ring plus interior hole rings. -/
structure GPolygon (α : Type) where
  exterior : List (Coord α)
  interiors : List (List (Coord α))
deriving Repr, DecidableEq

/-- Mirrors geo::Rect (axis-aligned rectangle given by min/max corners). -/
structure Rect (α : Type) where
  min : Coord α
  max : Coord α
deriving Repr, DecidableEq

/-- Mirrors geo::Rect::new from the external geo crate: the two corner
arguments are normalised so that `min` is the componentwise minimum and
`max` the componentwise maximum. -/
def Rect.new (c1 c2 : Coord ℚ) : Rect ℚ :=
  ⟨(Min.min c1.1 c2.1, Min.min c1.2 c2.2), (Max.max c1.1 c2.1, Max.max c1.2 c2.2)⟩

mutual
/-- Mirrors the geo::Geometry enum used throughout the repository
(variants as in the geo crate: Point, Line, LineString, Polygon,
MultiPoint, MultiLineString, MultiPolygon, GeometryCollection, Rect,
Triangle). The Vec of a GeometryCollection is embedded as the mutually
defined GeometryList. -/
inductive Geometry (α : Type) where
  | point (c : Coord α)
  | line (l : Line α)
  | lineString (coords : List (Coord α))
  | polygon (p : GPolygon α)
  | multiPoint (pts : List (Coord α))
  | multiLineString (ls : List (List (Coord α)))
  | multiPolygon (ps : List (GPolygon α))
  | geometryCollection (gs : GeometryList α)
  | rect (r : Rect α)
  | triangle (a b c : Coord α)
/-- List of geometries, for the GeometryCollection variant. -/
inductive GeometryList (α : Type) where
  | nil
  | cons (g : Geometry α) (gs : GeometryList α)
end

mutual
/-- Mirrors geo's MapCoords / MapCoordsInplace for Geometry: applies a pure
coordinate function to every coordinate, preserving structure
(spec section 4.A; used by Collections::map_coords_inplace and
Feature::with_offset). -/
def Geometry.map_coords (f : Coord α → Coord β) : Geometry α → Geometry β
  | .point c => .point (f c)
  | .line l => .line ⟨f l.start, f l.stop⟩
  | .lineString cs => .lineString (cs.map f)
  | .polygon p => .polygon ⟨p.exterior.map f, p.interiors.map (fun r => r.map f)⟩
  | .multiPoint ps => .multiPoint (ps.map f)
  | .multiLineString ls => .multiLineString (ls.map (fun r => r.map f))
  | .multiPolygon ps =>
      .multiPolygon (ps.map (fun p => ⟨p.exterior.map f, p.interiors.map (fun r => r.map f)⟩))
  | .geometryCollection gs => .geometryCollection (GeometryList.map_coords f gs)
  | .rect r => .rect ⟨f r.min, f r.max⟩
  | .triangle a b c => .triangle (f a) (f b) (f c)
/-- Coordinate mapping over a geometry list. -/
def GeometryList.map_coords (f : Coord α → Coord β) : GeometryList α → GeometryList β
  | .nil => .nil
  | .cons g gs => .cons (g.map_coords f) (GeometryList.map_coords f gs)
end

mutual
/-- Ordered list of every coordinate occurring in a geometry; used to state
the transform claims ("every coordinate of every feature"). -/
def Geometry.coords : Geometry α → List (Coord α)
  | .point c => [c]
  | .line l => [l.start, l.stop]
  | .lineString cs => cs
  | .polygon p => p.exterior ++ p.interiors.flatten
  | .multiPoint ps => ps
  | .multiLineString ls => ls.flatten
  | .multiPolygon ps => (ps.map (fun p => p.exterior ++ p.interiors.flatten)).flatten
  | .geometryCollection gs => GeometryList.coords gs
  | .rect r => [r.min, r.max]
  | .triangle a b c => [a, b, c]
/-- Coordinates of a geometry list. -/
def GeometryList.coords : GeometryList α → List (Coord α)
  | .nil => []
  | .cons g gs => g.coords ++ GeometryList.coords gs
end

/-- Mirrors the PropertyValue enum of src/src/feature/mod.rs lines 116-123:
null, boolean, string, number (f32, embedded as ℚ), array. -/
inductive PropertyValue where
  | null
  | bool (b : Bool)
  | string (s : String)
  | number (n : ℚ)
  | array (vs : List PropertyValue)

/-- Mirrors Rust f32::partial_cmp restricted to non-NaN values (ℚ carries
no NaN): always returns a comparison. -/
def cmp_f32 (a b : ℚ) : Ordering :=
  if a < b then .lt else if a = b then .eq else .gt

/-- Mirrors Rust String::cmp (lexicographic; UTF-8 byte order coincides
with code-point order, which is what Lean's String order compares). -/
def cmp_str (a b : String) : Ordering :=
  if a < b then .lt else if a = b then .eq else .gt

/-- Mirrors the handwritten `PartialEq for PropertyValue`
(src/src/feature/mod.rs lines 202-210): only two strings or two numbers can
compare equal; every other pairing, including two nulls, two booleans or
two arrays, falls into the `_ => false` arm. -/
def PropertyValue.eq : PropertyValue → PropertyValue → Bool
  | .string l0, .string r0 => l0 == r0
  | .number l0, .number r0 => l0 == r0
  | _, _ => false

/-- Mirrors the handwritten `PartialOrd for PropertyValue`
(src/src/feature/mod.rs lines 192-200): a comparison is returned only for
two numbers or two strings, `None` otherwise. -/
def PropertyValue.partial_cmp : PropertyValue → PropertyValue → Option Ordering
  | .number a, .number b => some (cmp_f32 a b)
  | .string a, .string b => some (cmp_str a b)
  | _, _ => none

/-- Mirrors crate::feature::Feature (src/src/feature/mod.rs lines 212-216):
geometry plus a property bag. The HashMap of properties is embedded as an
association list. -/
structure Feature (α : Type) where
  geometry : Geometry α
  properties : List (String × PropertyValue)

/-- Mirrors crate::feature::FeatureCollection, a newtype over Vec of
Feature. -/
abbrev FeatureCollection (α : Type) := List (Feature α)

/-- Mirrors crate::mvt::Collections (src/src/mvt/collections.rs line 8), a
HashMap from layer name to FeatureCollection, embedded as an association
list with distinct keys. -/
abbrev Collections := List (String × FeatureCollection ℚ)

/-- Association-list lookup, mirroring HashMap::get. -/
def alistGet : List (String × β) → String → Option β
  | [], _ => none
  | p :: rest, k => if p.1 = k then some p.2 else alistGet rest k

/-- Association-list insert, mirroring HashMap::insert: replaces the value
when the key is present, otherwise appends the binding. -/
def alistInsert (l : List (String × β)) (k : String) (v : β) : List (String × β) :=
  if (alistGet l k).isSome then
    l.map (fun p => if p.1 = k then (p.1, v) else p)
  else l ++ [(k, v)]

/-- Association-list value update at a key, mirroring HashMap::get_mut
followed by a mutation; bindings with other keys are untouched. -/
def alistUpdate (l : List (String × β)) (k : String) (f : β → β) : List (String × β) :=
  l.map (fun p => if p.1 = k then (p.1, f p.2) else p)

/-- Mirrors Feature's MapCoordsInplace impl (src/src/feature/mod.rs lines
262-269): maps the geometry's coordinates, properties untouched. -/
def Feature.map_coords (f : Coord α → Coord β) (ft : Feature α) : Feature β :=
  ⟨ft.geometry.map_coords f, ft.properties⟩

/-- Mirrors Collections::map_coords_inplace (src/src/mvt/collections.rs
lines 15-21): applies the coordinate function to every feature of every
layer. -/
def mapCollections (f : Coord ℚ → Coord ℚ) (c : Collections) : Collections :=
  c.map (fun p => (p.1, p.2.map (Feature.map_coords f)))

/-- Every coordinate of every feature of every layer, in registry order;
the observable the projection claims quantify over. -/
def collectionsCoords (c : Collections) : List (Coord ℚ) :=
  c.flatMap (fun p => p.2.flatMap (fun f => f.geometry.coords))

/-- Mirrors the free function `contains` of src/src/mvt/clip_feature.rs
lines 354-359: inclusive containment of a coordinate in a rectangle. -/
def rect_contains (rect : Rect ℚ) (coord : Coord ℚ) : Bool :=
  decide (rect.min.1 ≤ coord.1 ∧ coord.1 ≤ rect.max.1
    ∧ rect.min.2 ≤ coord.2 ∧ coord.2 ≤ rect.max.2)

/-- Mirrors geo's LineIntersection enum, returned by the external
`line_intersection` routine consumed by Line::clip. -/
inductive LineIntersection where
  | collinear (intersection : Line ℚ)
  | singlePoint (intersection : Coord ℚ) (is_proper : Bool)

/-- External geometric primitives consumed by the clip code: geo's
`line_intersection` (clip_feature.rs line 367) and geo_clipper's polygon
`intersection` (clip_feature.rs line 438). Theorems about the repository's
clip logic quantify over this record. -/
structure GeoPrims where
  line_intersection : Line ℚ → Line ℚ → Option LineIntersection
  polygon_intersection : GPolygon ℚ → GPolygon ℚ → List (GPolygon ℚ)

/-- Mirrors geo::Rect::to_polygon (external geo crate): the exterior ring
walks the four corners and closes; no interiors. -/
def Rect.to_polygon (rect : Rect ℚ) : GPolygon ℚ :=
  ⟨[rect.min, (rect.max.1, rect.min.2), rect.max, (rect.min.1, rect.max.2), rect.min], []⟩

/-- Mirrors LineString::lines of the geo crate: consecutive coordinate
pairs as segments. -/
def ring_lines (cs : List (Coord ℚ)) : List (Line ℚ) :=
  (cs.zip cs.tail).map (fun p => ⟨p.1, p.2⟩)

/-- Squared Euclidean distance. The source compares Euclidean distances of
candidate intersection points (clip_feature.rs line 404); comparing the
squares is equivalent because the square root is strictly monotone. -/
def dist_sq (a b : Coord ℚ) : ℚ :=
  (a.1 - b.1) ^ 2 + (a.2 - b.2) ^ 2

/-- Mirrors `Clip for Line` (src/src/mvt/clip_feature.rs lines 361-414):
intersect the segment with the rectangle's four edges, prefer a collinear
overlap, otherwise rebuild the segment from up to two intersection points
and the contained endpoints. The Rust `(None, Some(_))` arm panics
("this should never happen"); it is modelled as `none`. -/
def Line.clip (P : GeoPrims) (l : Line ℚ) (rect : Rect ℚ) : Option (Line ℚ) :=
  let box_lines := ring_lines rect.to_polygon.exterior
  let intersections := box_lines.filterMap (fun box_line => P.line_intersection box_line l)
  let start_contained := rect_contains rect l.start
  let end_contained := rect_contains rect l.stop
  let parts := intersections.partition
    (fun i => match i with | .collinear _ => true | .singlePoint _ _ => false)
  match parts.1.head? with
  | some (.collinear intersection) => some intersection
  | _ =>
    let single_point_coordinates := parts.2.filterMap
      (fun i => match i with | .singlePoint c _ => some c | .collinear _ => none)
    match single_point_coordinates.get? 0, single_point_coordinates.get? 1 with
    | none, none => if start_contained && end_contained then some l else none
    | some intersection, none =>
        if start_contained then some ⟨l.start, intersection⟩ else some ⟨intersection, l.stop⟩
    | some i1, some i2 =>
        if dist_sq i1 l.start < dist_sq i2 l.start then some ⟨i1, i2⟩ else some ⟨i2, i1⟩
    | none, some _ => none

/-- Mirrors `Clip for Point` (src/src/mvt/clip_feature.rs lines 416-430):
the point survives iff it lies inside the rectangle, boundaries
inclusive. -/
def point_clip (p : Coord ℚ) (rect : Rect ℚ) : Option (Coord ℚ) :=
  if p.1 ≥ rect.min.1 ∧ p.1 ≤ rect.max.1 ∧ p.2 ≥ rect.min.2 ∧ p.2 ≤ rect.max.2
  then some p else none

/-- Mirrors `Clip for Polygon` (src/src/mvt/clip_feature.rs lines 432-447):
run the external clipper intersection of the rectangle (as polygon) with
the polygon; `none` when the resulting multipolygon is empty. The f32/f64
coordinate conversions of the source are the identity over ℚ. -/
def GPolygon.clip (P : GeoPrims) (pg : GPolygon ℚ) (rect : Rect ℚ) : Option (List (GPolygon ℚ)) :=
  let clipped := P.polygon_intersection rect.to_polygon pg
  if clipped.isEmpty then none else some clipped

/-- Mirrors `Clip for Geometry` (src/src/mvt/clip_feature.rs lines
335-352): dispatch on the variant; a clipped Polygon becomes a
MultiPolygon; a MultiPolygon clips each constituent polygon independently
and flattens the non-empty results, always under `Some`; all other
variants yield `None`. -/
def Geometry.clip (P : GeoPrims) (g : Geometry ℚ) (rect : Rect ℚ) : Option (Geometry ℚ) :=
  match g with
  | .point pt => (point_clip pt rect).map (fun p => .point p)
  | .line l => (Line.clip P l rect).map (fun l => .line l)
  | .polygon pg => (GPolygon.clip P pg rect).map (fun pg => .multiPolygon pg)
  | .multiPolygon mpg =>
      some (.multiPolygon ((mpg.filterMap (fun pg => GPolygon.clip P pg rect)).flatten))
  | _ => none

/-- Mirrors Feature::clip (src/src/feature/mod.rs lines 218-223): clip the
geometry, keep the properties. -/
def Feature.clip (P : GeoPrims) (f : Feature ℚ) (rect : Rect ℚ) : Option (Feature ℚ) :=
  (Geometry.clip P f.geometry rect).map (fun geo => ⟨geo, f.properties⟩)

/-- Mirrors Feature::with_offset (src/src/feature/mod.rs lines 224-231):
translate every coordinate by the negated offset. -/
def Feature.with_offset (f : Feature ℚ) (offset : Coord ℚ) : Feature ℚ :=
  ⟨f.geometry.map_coords (fun c => (c.1 - offset.1, c.2 - offset.2)), f.properties⟩

/-- Truncation toward zero, mirroring num_traits to_i32 on f32
(feature/mod.rs line 242) and to_i64 on f64 (commands/mvt.rs line 534);
the i32/i64 range check of the source is assumed to succeed (its `unwrap`
would otherwise panic). -/
def ratTrunc (q : ℚ) : ℤ :=
  if 0 ≤ q then ⌊q⌋ else ⌈q⌉

/-- Mirrors `From<Feature> for mapbox_vector_tile::Feature`
(src/src/feature/mod.rs lines 234-246): coordinates are coerced to signed
integers by truncation toward zero; the property bag is carried over (the
external mapbox Value conversion of feature/mod.rs lines 141-156 is not
inspected by any claim and is kept as the identity on the bag). -/
def feature_to_mvt (f : Feature ℚ) : Feature ℤ :=
  ⟨f.geometry.map_coords (fun c => (ratTrunc c.1, ratTrunc c.2)), f.properties⟩

/-- Mirrors mapbox_vector_tile::Layer as used by the tile encoder: name,
extent (Layer::new's default 4096) and features with integer
coordinates. -/
structure TileLayer where
  name : String
  extent : ℕ
  features : List (Feature ℤ)

/-- Mirrors mapbox_vector_tile::Tile as used by create_tile: the ordered
list of layers. -/
structure Tile where
  layers : List TileLayer

/-- Mirrors FeatureCollection::to_layer (src/src/feature/mod.rs lines
299-312): clip each feature against the tile border, drop the `None`s,
translate by the offset and coerce to integers. -/
def FeatureCollection.to_layer (P : GeoPrims) (fc : FeatureCollection ℚ) (name : String)
    (tile_border : Rect ℚ) (offset : Coord ℚ) : TileLayer :=
  { name := name, extent := 4096,
    features := fc.filterMap
      (fun f => (Feature.clip P f tile_border).map
        (fun f => feature_to_mvt (f.with_offset offset))) }

/-- Mirrors DEFAULT_EXTENT (src/src/commands/mvt.rs line 26). -/
def DEFAULT_EXTENT : ℕ := 4096

/-- Mirrors create_tile (src/src/commands/mvt.rs lines 639-659): the tile
rectangle spans offset = (col·4096, row·4096) to offset + (4096, 4096);
every layer of the registry is turned into a tile layer. -/
def create_tile (P : GeoPrims) (col row : ℕ) (collections : Collections) : Tile :=
  let offset : Coord ℚ := ((col : ℚ) * (DEFAULT_EXTENT : ℚ), (row : ℚ) * (DEFAULT_EXTENT : ℚ))
  let extent : Coord ℚ := ((DEFAULT_EXTENT : ℚ), (DEFAULT_EXTENT : ℚ))
  let tile_border := Rect.new offset (offset.1 + extent.1, offset.2 + extent.2)
  { layers := collections.map
      (fun p => FeatureCollection.to_layer P p.2 p.1 tile_border offset) }

/-- Mirrors ArmaMaxLodTileProjection (src/src/mvt/project_arma_to_tile.rs
lines 81-90). world_size is NonZeroUsize in the source; positivity is
carried as a hypothesis of the theorems. -/
structure ArmaMaxLodTileProjection where
  collections : Collections
  world_size : ℕ
  max_lod : ℕ
  tile_size : ℕ
  current_lod : ℕ

/-- Mirrors ArmaMaxLodTileProjection::new (project_arma_to_tile.rs lines
92-104): factor = 2^max_lod · tile_size / world_size; every coordinate
(x, y) becomes (x · factor, (world_size − y) · factor); current_lod starts
at max_lod. -/
def ArmaMaxLodTileProjection.new (collections : Collections) (world_size max_lod tile_size : ℕ) :
    ArmaMaxLodTileProjection :=
  let world_size_f : ℚ := (world_size : ℚ)
  let tiles_per_dimension : ℕ := 2 ^ max_lod
  let pixels : ℕ := tiles_per_dimension * tile_size
  let factor : ℚ := (pixels : ℚ) / world_size_f
  { collections := mapCollections
      (fun c => (c.1 * factor, (world_size_f - c.2) * factor)) collections,
    world_size := world_size, max_lod := max_lod, tile_size := tile_size,
    current_lod := max_lod }

/-- Mirrors LodProjection::decrease_lod for ArmaMaxLodTileProjection
(project_arma_to_tile.rs lines 121-132). Note the order of operations in
the source: the coordinates are halved first, unconditionally; only then
does checked_sub decide between decrementing current_lod (Ok) and
reporting "lod zero reached" (Err, current_lod untouched). -/
def ArmaMaxLodTileProjection.decrease_lod (p : ArmaMaxLodTileProjection) :
    Except String ℕ × ArmaMaxLodTileProjection :=
  let collections := mapCollections (fun c => (c.1 / 2, c.2 / 2)) p.collections
  match p.current_lod with
  | 0 => (Except.error "lod zero reached", { p with collections := collections })
  | Nat.succ u => (Except.ok u, { p with collections := collections, current_lod := u })

/-- Iterated decrease_lod keeping only fully successful runs: `some` after
k calls that all returned Ok, `none` as soon as one fails. -/
def decrease_steps : ℕ → ArmaMaxLodTileProjection → Option ArmaMaxLodTileProjection
  | 0, p => some p
  | Nat.succ k, p =>
    match p.decrease_lod with
    | (Except.ok _, p1) => decrease_steps k p1
    | (Except.error _, _) => none

/-- Mirrors crate::dem::Origin (src/src/dem/raster.rs lines 1-5). -/
inductive Origin where
  | center (x y : ℚ)
  | corner (x y : ℚ)

/-- Mirrors crate::dem::DEMRaster (src/src/dem/raster.rs lines 9-20):
dimensions, lower-left corner, cell size, no-data sentinel and the
row-major elevation grid. -/
structure DEMRaster where
  columns : ℕ
  rows : ℕ
  left : ℚ
  bottom : ℚ
  cell_size : ℚ
  no_data_value : ℚ
  data : List ℚ

/-- Mirrors DEMRaster::new (raster.rs lines 22-48). -/
def DEMRaster.new (columns rows : ℕ) (origin : Origin) (cell_size no_data_value : ℚ)
    (data : List ℚ) : DEMRaster :=
  match origin with
  | .center x y =>
      ⟨columns, rows, x - cell_size * (columns : ℚ) / 2, y - cell_size * (rows : ℚ) / 2,
        cell_size, no_data_value, data⟩
  | .corner x y => ⟨columns, rows, x, y, cell_size, no_data_value, data⟩

/-- Mirrors DEMRaster::x (raster.rs lines 54-56). -/
def DEMRaster.x (d : DEMRaster) (column : ℕ) : ℚ :=
  d.left + (column : ℚ) * d.cell_size

/-- Mirrors DEMRaster::y (raster.rs lines 58-61): row 0 is the top;
`rows − row` is usize subtraction, which all callers keep from
underflowing, so Nat subtraction is faithful. -/
def DEMRaster.y (d : DEMRaster) (row : ℕ) : ℚ :=
  d.bottom + ((d.rows - row : ℕ) : ℚ) * d.cell_size

/-- Mirrors DEMRaster::z (raster.rs lines 63-65); the Vec index is in
bounds at every call site (out of bounds would panic in Rust), the default
0 is never consulted. -/
def DEMRaster.z (d : DEMRaster) (col row : ℕ) : ℚ :=
  d.data.getD (col + row * d.columns) 0

/-- Mirrors NEIGHBOUR_CELLS (src/src/mvt/mounts.rs line 5). -/
def NEIGHBOUR_CELLS : List (ℤ × ℤ) :=
  [(-1, -1), (-1, 0), (-1, 1), (0, -1), (0, 1), (1, -1), (1, 0), (1, 1)]

/-- Elevation key used by the sort in build_mounts (mounts.rs lines 50-54):
the features being sorted always carry a Number under "elevation" (the
source unwraps). -/
def feature_elevation (f : Feature ℚ) : ℚ :=
  match alistGet f.properties "elevation" with
  | some (.number q) => q
  | _ => 0

/-- Stable ascending insertion by elevation; with the total order on ℚ this
computes exactly the result of Rust's stable sort_by with the
partial_cmp-based comparator of mounts.rs lines 50-54 (a stable sort is
determined by the multiset and the original order of ties). -/
def insert_by_elevation (a : Feature ℚ) : List (Feature ℚ) → List (Feature ℚ)
  | [] => [a]
  | b :: bs =>
      if feature_elevation a < feature_elevation b then a :: b :: bs
      else b :: insert_by_elevation a bs

/-- Stable sort by ascending elevation (mounts.rs lines 50-54). -/
def sort_by_elevation (l : List (Feature ℚ)) : List (Feature ℚ) :=
  l.foldl (fun acc a => insert_by_elevation a acc) []

/-- Mirrors the `format!("{:.0}", x)` rounding used for the mount label
(mounts.rs line 34): round to the nearest integer, ties to even (Rust float
formatting). -/
def round_half_even (q : ℚ) : ℤ :=
  let f := ⌊q⌋
  let r := q - (f : ℚ)
  if r < 1 / 2 then f
  else if 1 / 2 < r then f + 1
  else if f % 2 = 0 then f else f + 1

/-- Decimal rendering of the rounded elevation (mounts.rs line 34). -/
def format_zero_decimals (q : ℚ) : String :=
  toString (round_half_even q)

/-- Mirrors build_mounts (src/src/mvt/mounts.rs lines 7-59): scan the
interior cells column-major (col outer, row inner); keep cells with
elevation > 0 whose 8 neighbours are all strictly lower; emit a point
feature — at (x(col), y(col)): the source passes the COLUMN to both
DEMRaster::x and DEMRaster::y (line 31) — with elevation and text
properties; sort ascending by elevation and insert as layer "mounts".
The source returns Ok(()) unconditionally, so the Result wrapper is
dropped. -/
def build_mounts (dem : DEMRaster) (elevation_offset : ℚ) (collections : Collections) :
    Collections :=
  let w := dem.columns
  let h := dem.rows
  let mounts : List (Feature ℚ) :=
    (List.range' 1 (w - 1 - 1)).flatMap (fun col =>
      (List.range' 1 (h - 1 - 1)).filterMap (fun row =>
        let elev := dem.z col row
        if elev ≤ 0 then none
        else
          let has_higher_neighbors := NEIGHBOUR_CELLS.any (fun d =>
            decide (dem.z ((col : ℤ) + d.1).toNat ((row : ℤ) + d.2).toNat ≥ elev))
          if has_higher_neighbors then none
          else
            let corrected_elevation := elev + elevation_offset
            some ⟨Geometry.point (dem.x col, dem.y col),
              [("elevation", PropertyValue.number corrected_elevation),
               ("text", PropertyValue.string (format_zero_decimals corrected_elevation))]⟩))
  alistInsert collections "mounts" (sort_by_elevation mounts)

/-- First value of a list under repeated `min`, mirroring Iterator::min_by
with the partial_cmp comparator (commands/mvt.rs line 529); only the value
matters, which foldl min computes. -/
def list_min? : List ℚ → Option ℚ
  | [] => none
  | a :: rest => some (rest.foldl Min.min a)

/-- Counterpart for Iterator::max_by (commands/mvt.rs line 530). -/
def list_max? : List ℚ → Option ℚ
  | [] => none
  | a :: rest => some (rest.foldl Max.max a)

/-- Inclusive integer range a..=b as a list, mirroring the Rust range at
commands/mvt.rs line 534; empty when b < a. -/
def int_range_icc (a b : ℤ) : List ℤ :=
  (List.range (b - a + 1).toNat).map (fun (i : ℕ) => a + (i : ℤ))

/-- Mirrors the threshold computation of build_contours (commands/mvt.rs
lines 515-534): filter out the no-data sentinel, take min and max, fail
when no sample remains, and build the inclusive integer range from
to_i64(min) to to_i64(max) — to_i64 truncates toward zero. -/
def contour_thresholds (data : List ℚ) (no_data_value : ℚ) : Except String (List ℤ) :=
  let filtered := data.filter (fun x => x != no_data_value)
  match list_min? filtered, list_max? filtered with
  | some mn, some mx => Except.ok (int_range_icc (ratTrunc mn) (ratTrunc mx))
  | _, _ => Except.error "no values in DEM raster"

/-- Mirrors build_contours (src/src/commands/mvt.rs lines 515-562). The
external marching-squares ContourBuilder together with the geojson-feature
conversion (commands/mvt.rs lines 370-426, whose inputs are types of the
external geojson crate) is abstracted as the `extract` parameter, invoked
on the f64 copy of the DEM data and the thresholds. On success the
features are rescaled by cell size with the y-flip and inserted as
"contours/01"; the four empty sub-layers contours/05, 10, 50, 100 are
inserted afterwards whether or not extraction succeeded; the extraction
error, if any, is then surfaced. -/
def build_contours (extract : List ℚ → List ℤ → Except String (List (Feature ℚ)))
    (dem : DEMRaster) (elevation_offset : ℚ) (world_size : ℕ) (collections : Collections) :
    Except String Unit × Collections :=
  let cell_size := dem.cell_size
  let expand_by_cell_size : Coord ℚ → Coord ℚ :=
    fun c => (c.1 * cell_size, (world_size : ℚ) - c.2 * cell_size)
  let dem64 := dem.data
  match contour_thresholds dem64 dem.no_data_value with
  | Except.error e => (Except.error e, collections)
  | Except.ok thresholds =>
    let res : Except String Collections :=
      (extract dem64 thresholds).map (fun features =>
        let foo := features.map (fun f => Feature.map_coords expand_by_cell_size f)
        alistInsert collections "contours/01" foo)
    let collections1 := match res with | Except.ok c => c | Except.error _ => collections
    let collections2 :=
      alistInsert (alistInsert (alistInsert (alistInsert collections1
        "contours/05" []) "contours/10" []) "contours/50" []) "contours/100" []
    (res.map (fun _ => ()), collections2)

/-- Digit value of an ASCII digit character. -/
def digit_val (c : Char) : Option ℕ :=
  if '0' ≤ c ∧ c ≤ '9' then some (c.toNat - 48) else none

/-- Parse a non-empty all-digit character list into a number; `none` on the
empty list or on a non-digit, mirroring `str::parse::<usize>` after the
optional sign (arbitrary precision stands in for usize; the claims stay far
from overflow). -/
def parse_digits : List Char → Option ℕ → Option ℕ
  | [], acc => acc
  | c :: cs, acc =>
    match digit_val c with
    | none => none
    | some d => parse_digits cs (some (acc.getD 0 * 10 + d))

/-- Mirrors `str::parse::<usize>` (commands/mvt.rs line 704): an optional
leading plus sign followed by one or more ASCII digits. -/
def parse_usize (s : String) : Option ℕ :=
  match s.toList with
  | '+' :: cs => parse_digits cs none
  | cs => parse_digits cs none

/-- Mirrors the per-name step of the filter_map in fill_contour_layers
(commands/mvt.rs lines 702-708): strip the "contours/" opening, parse the
remainder as usize, and pair the full name with the interval. -/
def contour_layer_num (name : String) : Option (String × ℕ) :=
  let cs := name.toList
  if cs.take 9 = ['c', 'o', 'n', 't', 'o', 'u', 'r', 's', '/'] then
    (parse_usize (String.mk (cs.drop 9))).map (fun i => (name, i))
  else none

/-- Mirrors the contours_names computation of fill_contour_layers
(commands/mvt.rs lines 702-711): parse each visible name and drop interval
0. -/
def matchedContours (lod_layer_names : List String) : List (String × ℕ) :=
  (lod_layer_names.filterMap contour_layer_num).filter (fun p => p.2 ≠ 0)

/-- Mirrors Iterator::step_by(n) on a list for n ≥ 1 (commands/mvt.rs line
715): elements at indices 0, n, 2n, …. (step_by(0) panics in Rust;
fill_contour_layers filters interval 0 out before stepping.) -/
def step_by (l : List α) (n : ℕ) : List α :=
  match l with
  | [] => []
  | a :: rest => a :: step_by (rest.drop (n - 1)) n
termination_by l.length
decreasing_by
  simp only [List.length_drop, List.length_cons]
  omega

/-- Outcome of fill_contour_layers: Ok, the recoverable missing-base-layer
error (commands/mvt.rs line 699), or the panic of the `unwrap` at line 716
when a matched sub-layer is absent from the registry. -/
inductive FillOutcome where
  | ok
  | missingBase
  | panicked
deriving Repr, DecidableEq

/-- One iteration of the for_each of fill_contour_layers (commands/mvt.rs
lines 713-718): push every interval-th feature of the cloned base layer
onto the matched sub-layer; a missing sub-layer is the source's panic,
after which no further mutation happens. -/
def fill_step (contour_features : FeatureCollection ℚ) (acc : FillOutcome × Collections)
    (p : String × ℕ) : FillOutcome × Collections :=
  match acc with
  | (FillOutcome.panicked, c) => (FillOutcome.panicked, c)
  | (_, c) =>
    if (alistGet c p.1).isSome then
      (FillOutcome.ok, alistUpdate c p.1 (fun fc => fc ++ step_by contour_features p.2))
    else (FillOutcome.panicked, c)

/-- Mirrors fill_contour_layers (src/src/commands/mvt.rs lines 694-720):
clone the base "contours" layer (recoverable error when absent, before any
mutation), compute the matched `contours/<N>` names among the visible
layer names, and append every N-th base feature to each matched
sub-layer. -/
def fill_contour_layers (lod_layer_names : List String) (collections : Collections) :
    FillOutcome × Collections :=
  match alistGet collections "contours" with
  | none => (FillOutcome.missingBase, collections)
  | some contour_features =>
      (matchedContours lod_layer_names).foldl (fill_step contour_features)
        (FillOutcome.ok, collections)

/-- Concrete instantiation of the external geometry primitives, used only
to evaluate closed theorems: the inputs in this file either never consult
the primitives (point geometries) or are polygons strictly disjoint from
the clip rectangle, where the geo_clipper intersection is empty (the
source's own test clip_polygon_thats_outside_the_box_will_return_none,
clip_feature.rs lines 204-218, documents that behaviour). -/
def stubPrims : GeoPrims :=
  ⟨fun _ _ => none, fun _ _ => []⟩

/-- Demo registry for the projection scenario of spec section 8
(end-to-end scenario 1): a single point feature at world (1, 2). -/
def c1cols : Collections :=
  [("foo", [⟨Geometry.point (1, 2), []⟩])]

/-- Projector at max_lod 0 used by the C7 counterexample: constructed via
the public constructor, so current_lod is already 0. -/
def c7proj : ArmaMaxLodTileProjection :=
  ArmaMaxLodTileProjection.new c1cols 1024 0 2048

/-- DEM for the C4 failing input: 3 columns x 4 rows, corner (0,0), cell
size 1; single interior peak of elevation 9 at column 1, row 2. -/
def c4dem : DEMRaster :=
  DEMRaster.new 3 4 (Origin.corner 0 0) 1 (-9999)
    [0, 0, 0,
     1, 2, 1,
     1, 9, 1,
     0, 0, 0]

/-- DEM of spec end-to-end scenario 2 (also the build_contours unit test at
commands/mvt.rs lines 66-86): 2x2 samples 0, 6, 1, 7. -/
def c10dem : DEMRaster :=
  DEMRaster.new 2 2 (Origin.corner 0 0) 1 (-999999 / 100)
    [0, 6, 1, 7]

/-- Failing marching-squares extraction used to exercise the error path of
build_contours in closed theorems. -/
def extractFail : List ℚ → List ℤ → Except String (List (Feature ℚ)) :=
  fun _ _ => Except.error "marching squares failed"

/-- Polygon strictly outside the rectangle (0,0)-(5,10), for the C2
counterexample. -/
def c2poly : GPolygon ℚ :=
  ⟨[(20, 20), (21, 20), (21, 21), (20, 21), (20, 20)], []⟩

/-- Eleven distinguishable base contour features for the C6/C9 fill
scenario (spec end-to-end scenario 4). -/
def c6base : FeatureCollection ℚ :=
  (List.range 11).map (fun i => ⟨Geometry.point ((i : ℚ), 0), []⟩)

/-- Registry for the C6 witness: base layer with 11 features, an empty
contours/05 sub-layer and an unrelated layer. -/
def c6cols : Collections :=
  [("contours", c6base), ("contours/05", []), ("foo", [⟨Geometry.point (3, 3), []⟩])]

/-- The pure per-name effect of fill_contour_layers once all sub-layers
are known to be present: append the stepped base features. -/
def fill_upd (base : FeatureCollection ℚ) (c : Collections) (p : String × ℕ) : Collections :=
  alistUpdate c p.1 (fun fc => fc ++ step_by base p.2)

/-- Registry for the C9 witness: the contours/05 sub-layer already holds a
feature, and an unrelated layer rides along. -/
def c9cols : Collections :=
  [("contours", c6base), ("contours/05", [⟨Geometry.point (99, 99), []⟩]),
   ("bar", [⟨Geometry.point (7, 7), []⟩])]

/-! Helper lemmas shared by the claim theorems. -/

mutual
/-- Mapping coordinates commutes with listing them: structure-preserving
coordinate rewriting touches exactly the listed coordinates. -/
theorem Geometry.coords_map_coords (f : Coord α → Coord β) : (g : Geometry α) →
    (g.map_coords f).coords = g.coords.map f
  | .point c => rfl
  | .line l => rfl
  | .lineString cs => rfl
  | .polygon p => by
      simp [Geometry.map_coords, Geometry.coords]
  | .multiPoint ps => rfl
  | .multiLineString ls => by
      simp [Geometry.map_coords, Geometry.coords]
  | .multiPolygon ps => by
      simp only [Geometry.map_coords, Geometry.coords, List.map_map, List.map_flatten]
      congr 1
      apply List.map_congr_left
      intro p _
      simp [Function.comp, List.map_append]
  | .geometryCollection gs => by
      simpa [Geometry.map_coords, Geometry.coords] using
        GeometryList.coords_map_coords_list f gs
  | .rect r => rfl
  | .triangle a b c => rfl
/-- List version of coords_map_coords. -/
theorem GeometryList.coords_map_coords_list (f : Coord α → Coord β) : (gs : GeometryList α) →
    (GeometryList.map_coords f gs).coords = gs.coords.map f
  | .nil => rfl
  | .cons g gs => by
      simp only [GeometryList.map_coords, GeometryList.coords, List.map_append]
      rw [Geometry.coords_map_coords f g, GeometryList.coords_map_coords_list f gs]
end

/-- Coordinates of a mapped layer are the mapped coordinates. -/
theorem layer_coords_map (f : Coord ℚ → Coord ℚ) (fc : FeatureCollection ℚ) :
    (fc.map (Feature.map_coords f)).flatMap (fun ft => ft.geometry.coords)
      = (fc.flatMap (fun ft => ft.geometry.coords)).map f := by
  induction fc with
  | nil => rfl
  | cons ft fts ih =>
      simp only [List.map_cons, List.flatMap_cons, List.map_append, ih,
        Feature.map_coords, Geometry.coords_map_coords]

/-- The registry-wide coordinate list of a mapped registry is the mapped
coordinate list. -/
theorem collectionsCoords_mapCollections (f : Coord ℚ → Coord ℚ) (c : Collections) :
    collectionsCoords (mapCollections f c) = (collectionsCoords c).map f := by
  induction c with
  | nil => rfl
  | cons p rest ih =>
      simp only [collectionsCoords, mapCollections, List.map_cons, List.flatMap_cons,
        List.map_append] at ih ⊢
      rw [ih, layer_coords_map]

/-- Replacing the bindings of one key does not change lookups of other
keys. -/
theorem alistGet_map_replace_ne (l : List (String × β)) (k k' : String) (v : β)
    (h : ¬ k' = k) :
    alistGet (l.map (fun p => if p.1 = k then (p.1, v) else p)) k' = alistGet l k' := by
  induction l with
  | nil => rfl
  | cons p rest ih =>
    by_cases hpk : p.1 = k
    · subst hpk
      have h1 : ¬ p.1 = k' := fun hc => h hc.symm
      simp [alistGet, h1, ih]
    · by_cases hpk' : p.1 = k'
      · simp [alistGet, hpk, hpk', h]
      · simp [alistGet, hpk, hpk', ih]

/-- Replacing the bindings of a present key makes its lookup the new
value. -/
theorem alistGet_map_replace_self (l : List (String × β)) (k : String) (v : β)
    (h : (alistGet l k).isSome) :
    alistGet (l.map (fun p => if p.1 = k then (p.1, v) else p)) k = some v := by
  induction l with
  | nil => simp [alistGet] at h
  | cons p rest ih =>
    by_cases hpk : p.1 = k
    · subst hpk; simp [alistGet]
    · have h2 : (alistGet rest k).isSome := by simpa [alistGet, hpk] using h
      simp [alistGet, hpk, ih h2]

/-- Appending a fresh binding: the new key becomes visible, the others are
untouched. -/
theorem alistGet_append_absent (l : List (String × β)) (k k' : String) (v : β)
    (hnone : alistGet l k = none) :
    alistGet (l ++ [(k, v)]) k' = if k' = k then some v else alistGet l k' := by
  induction l with
  | nil =>
    by_cases hkk : k' = k
    · subst hkk; simp [alistGet]
    · simp [alistGet, hkk, show ¬ k = k' from fun hc => hkk hc.symm]
  | cons p rest ih =>
    have hpk : ¬ p.1 = k := by
      intro hc
      rw [alistGet, if_pos hc] at hnone
      cases hnone
    have hrest : alistGet rest k = none := by rwa [alistGet, if_neg hpk] at hnone
    by_cases hpk' : p.1 = k'
    · have hkk : ¬ k' = k := fun hc => hpk (hpk'.trans hc)
      simp [alistGet, hpk', hkk]
    · simp [alistGet, hpk', ih hrest]

/-- Lookup after insert: the inserted key maps to the new value, all other
keys are unchanged. -/
theorem alistGet_alistInsert (l : List (String × β)) (k k' : String) (v : β) :
    alistGet (alistInsert l k v) k' = if k' = k then some v else alistGet l k' := by
  unfold alistInsert
  by_cases hfound : (alistGet l k).isSome
  · rw [if_pos hfound]
    by_cases hkk : k' = k
    · subst hkk
      rw [if_pos rfl, alistGet_map_replace_self l k' v hfound]
    · rw [if_neg hkk, alistGet_map_replace_ne l k k' v hkk]
  · rw [if_neg hfound]
    have hnone : alistGet l k = none := by
      cases hc : alistGet l k with
      | none => rfl
      | some b => rw [hc] at hfound; simp at hfound
    exact alistGet_append_absent l k k' v hnone

/-- Lookup after an in-place update: the updated key gets the function
applied, all other keys are unchanged. -/
theorem alistGet_alistUpdate (l : List (String × β)) (k k' : String) (f : β → β) :
    alistGet (alistUpdate l k f) k' =
      if k' = k then (alistGet l k).map f else alistGet l k' := by
  induction l with
  | nil => simp [alistUpdate, alistGet]
  | cons p rest ih =>
    simp only [alistUpdate, List.map_cons] at ih ⊢
    by_cases hpk : p.1 = k
    · subst hpk
      by_cases hkk : k' = p.1
      · subst hkk; simp [alistGet, ih]
      · have h1 : ¬ p.1 = k' := fun hc => hkk hc.symm
        simp [alistGet, h1, hkk, ih]
    · by_cases hpk' : p.1 = k'
      · have hkk : ¬ k' = k := fun hc => hpk (hpk'.trans hc)
        simp [alistGet, hpk, hpk', hkk]
      · simp [alistGet, hpk, hpk', ih]

/-- Updating preserves which keys are present. -/
theorem alistGet_isSome_alistUpdate (l : List (String × β)) (k k' : String) (f : β → β) :
    (alistGet (alistUpdate l k f) k').isSome = (alistGet l k').isSome := by
  rw [alistGet_alistUpdate]
  by_cases hkk : k' = k <;> simp [hkk]

/-- Rust's step_by yields exactly the elements at the multiples of the
step: element j of the stepped list is element j·n of the original. -/
theorem step_by_getElem? (n : ℕ) (hn : 1 ≤ n) (j : ℕ) : (l : List α) →
    (step_by l n)[j]? = l[j * n]? := by
  induction j with
  | zero =>
    intro l
    cases l with
    | nil => rw [step_by]; simp
    | cons a rest => rw [step_by]; simp
  | succ j ih =>
    intro l
    cases l with
    | nil => rw [step_by]; simp
    | cons a rest =>
      rw [step_by, List.getElem?_cons_succ, ih, List.getElem?_drop]
      have hidx : (j + 1) * n = (n - 1 + j * n) + 1 := by
        rw [Nat.succ_mul]
        omega
      rw [hidx, List.getElem?_cons_succ]

/-- Membership in the inclusive integer range list. -/
theorem mem_int_range_icc (a b z : ℤ) : z ∈ int_range_icc a b ↔ a ≤ z ∧ z ≤ b := by
  unfold int_range_icc
  constructor
  · intro hz
    obtain ⟨i, hi, hfi⟩ := List.mem_map.mp hz
    rw [List.mem_range] at hi
    omega
  · rintro ⟨h1, h2⟩
    refine List.mem_map.mpr ⟨(z - a).toNat, ?_, ?_⟩
    · rw [List.mem_range]
      omega
    · omega

/-- How decrease_lod behaves when current_lod is positive: coordinates
halved, counter decremented, Ok returned. -/
theorem decrease_lod_at_succ (p : ArmaMaxLodTileProjection) (u : ℕ)
    (h : p.current_lod = u + 1) :
    p.decrease_lod = (Except.ok u,
      { p with collections := mapCollections (fun c => (c.1 / 2, c.2 / 2)) p.collections,
               current_lod := u }) := by
  unfold ArmaMaxLodTileProjection.decrease_lod
  rw [h]

/-- How decrease_lod behaves at current_lod = 0: coordinates are still
halved, the counter stays, an error is returned. -/
theorem decrease_lod_at_zero (p : ArmaMaxLodTileProjection)
    (h : p.current_lod = 0) :
    p.decrease_lod = (Except.error "lod zero reached",
      { p with collections := mapCollections (fun c => (c.1 / 2, c.2 / 2)) p.collections }) := by
  unfold ArmaMaxLodTileProjection.decrease_lod
  rw [h]

/-- Unfolding equation for decrease_steps at a successor. -/
theorem decrease_steps_succ (k : ℕ) (p : ArmaMaxLodTileProjection) :
    decrease_steps (k + 1) p =
      match p.decrease_lod with
      | (Except.ok _, p1) => decrease_steps k p1
      | (Except.error _, _) => none := rfl

/-- k decrease_lod calls starting at current_lod ≥ k all succeed, divide
every coordinate by 2^k and decrement the counter by k. -/
theorem decrease_steps_spec (k : ℕ) : ∀ p : ArmaMaxLodTileProjection, k ≤ p.current_lod →
    ∃ p1, decrease_steps k p = some p1
      ∧ collectionsCoords p1.collections
          = (collectionsCoords p.collections).map (fun c => (c.1 / 2 ^ k, c.2 / 2 ^ k))
      ∧ p1.current_lod = p.current_lod - k := by
  induction k with
  | zero =>
    intro p _
    refine ⟨p, rfl, ?_, rfl⟩
    simp
  | succ k ih =>
    intro p hk
    obtain ⟨u, hu⟩ : ∃ u, p.current_lod = u + 1 := by
      cases hc : p.current_lod with
      | zero => rw [hc] at hk; omega
      | succ u => exact ⟨u, rfl⟩
    have hdl := decrease_lod_at_succ p u hu
    have hk' : k ≤ u := by omega
    have hcur2 : p.decrease_lod.2.current_lod = u := by rw [hdl]
    obtain ⟨p2, hsteps, hcoords, hlod⟩ := ih p.decrease_lod.2 (by rw [hcur2]; exact hk')
    refine ⟨p2, ?_, ?_, ?_⟩
    · rw [decrease_steps_succ]
      rw [hdl] at hsteps ⊢
      exact hsteps
    · have hc1 : collectionsCoords p.decrease_lod.2.collections
          = (collectionsCoords p.collections).map (fun c => (c.1 / 2, c.2 / 2)) := by
        rw [hdl]
        exact collectionsCoords_mapCollections _ _
      rw [hcoords, hc1, List.map_map]
      apply List.map_congr_left
      intro c _
      simp only [Function.comp, Prod.mk.injEq]
      constructor <;> ring
    · rw [hlod, hcur2, hu]
      omega

/-- C1: construction of the LOD projector with world_size > 0 and
tile_size > 0 rewrites every coordinate (x, y) of every feature to
(x·f, (world_size − y)·f) with f = tile_size · 2^max_lod / world_size, and
k ≤ max_lod decrease_lod calls all succeed and leave every coordinate at
its post-construction value divided by 2^k
(src/src/mvt/project_arma_to_tile.rs lines 91-105 and 121-132). -/
theorem c1_lod_projection (cols : Collections) (ws ml ts k : ℕ)
    (hws : 0 < ws) (hts : 0 < ts) (hk : k ≤ ml) :
    collectionsCoords (ArmaMaxLodTileProjection.new cols ws ml ts).collections
      = (collectionsCoords cols).map
          (fun c => (c.1 * ((ts : ℚ) * 2 ^ ml / (ws : ℚ)),
                     ((ws : ℚ) - c.2) * ((ts : ℚ) * 2 ^ ml / (ws : ℚ))))
    ∧ ∃ p1, decrease_steps k (ArmaMaxLodTileProjection.new cols ws ml ts) = some p1
        ∧ collectionsCoords p1.collections
            = (collectionsCoords (ArmaMaxLodTileProjection.new cols ws ml ts).collections).map
                (fun c => (c.1 / 2 ^ k, c.2 / 2 ^ k))
        ∧ p1.current_lod = ml - k := by
  have hfirst : collectionsCoords (ArmaMaxLodTileProjection.new cols ws ml ts).collections
      = (collectionsCoords cols).map
          (fun c => (c.1 * ((ts : ℚ) * 2 ^ ml / (ws : ℚ)),
                     ((ws : ℚ) - c.2) * ((ts : ℚ) * 2 ^ ml / (ws : ℚ)))) := by
    have h0 : collectionsCoords (ArmaMaxLodTileProjection.new cols ws ml ts).collections
        = (collectionsCoords cols).map
            (fun c => (c.1 * (((2 ^ ml * ts : ℕ) : ℚ) / ((ws : ℕ) : ℚ)),
                       (((ws : ℕ) : ℚ) - c.2) * (((2 ^ ml * ts : ℕ) : ℚ) / ((ws : ℕ) : ℚ)))) :=
      collectionsCoords_mapCollections _ _
    rw [h0]
    apply List.map_congr_left
    intro c _
    have hfac : (((2 ^ ml * ts : ℕ)) : ℚ) / ((ws : ℕ) : ℚ) = (ts : ℚ) * 2 ^ ml / (ws : ℚ) := by
      push_cast
      ring
    rw [hfac]
  refine ⟨hfirst, ?_⟩
  have hcur : (ArmaMaxLodTileProjection.new cols ws ml ts).current_lod = ml := rfl
  obtain ⟨p1, hsteps, hcoords, hlod⟩ :=
    decrease_steps_spec k (ArmaMaxLodTileProjection.new cols ws ml ts) (by rw [hcur]; exact hk)
  exact ⟨p1, hsteps, hcoords, by rw [hlod, hcur]⟩

/-- Witness for C1: the end-to-end scenario of the spec — a point at world
(1, 2) with world_size 1024, max_lod 3, tile_size 2048 lands at
(16, 16352) and after three successful decreases at (2, 2044). -/
theorem c1_lod_projection_witness :
    (0 < 1024 ∧ 0 < 2048 ∧ 3 ≤ 3)
    ∧ collectionsCoords (ArmaMaxLodTileProjection.new c1cols 1024 3 2048).collections
        = [((16 : ℚ), 16352)]
    ∧ ∃ p1, decrease_steps 3 (ArmaMaxLodTileProjection.new c1cols 1024 3 2048) = some p1
        ∧ collectionsCoords p1.collections = [((2 : ℚ), 2044)]
        ∧ p1.current_lod = 0 := by
  have hc := c1_lod_projection c1cols 1024 3 2048 3 (by norm_num) (by norm_num) (le_refl 3)
  have hbase : collectionsCoords c1cols = [((1 : ℚ), 2)] := rfl
  have h1 : collectionsCoords (ArmaMaxLodTileProjection.new c1cols 1024 3 2048).collections
      = [((16 : ℚ), 16352)] := by
    rw [hc.1, hbase]
    norm_num
  obtain ⟨p1, hsteps, hcoords, hlod⟩ := hc.2
  refine ⟨⟨by norm_num, by norm_num, le_refl 3⟩, h1, p1, hsteps, ?_, hlod⟩
  rw [hcoords, h1]
  norm_num

/-- C7 (amended): a decrease_lod call at current_lod = 0 returns the
"lod zero reached" error and leaves current_lod at 0, but it still halves
every stored coordinate before failing — the halving precedes the
checked_sub in the source (src/src/mvt/project_arma_to_tile.rs lines
121-132). -/
theorem c7_decrease_lod_at_zero (p : ArmaMaxLodTileProjection) (h : p.current_lod = 0) :
    p.decrease_lod.1 = Except.error "lod zero reached"
    ∧ p.decrease_lod.2.current_lod = 0
    ∧ collectionsCoords p.decrease_lod.2.collections
        = (collectionsCoords p.collections).map (fun c => (c.1 / 2, c.2 / 2)) := by
  rw [decrease_lod_at_zero p h]
  exact ⟨rfl, h, collectionsCoords_mapCollections _ _⟩

/-- Counterexample to C7 as stated: a projector built by the public
constructor with max_lod 0 holds the point (2, 2044); the failing
decrease_lod call changes it to (1, 1022), so the claim that no coordinate
is modified by the failing call is false. -/
theorem c7_counterexample :
    c7proj.current_lod = 0
    ∧ c7proj.decrease_lod.1 = Except.error "lod zero reached"
    ∧ collectionsCoords c7proj.decrease_lod.2.collections
        ≠ collectionsCoords c7proj.collections := by
  refine ⟨rfl, rfl, ?_⟩
  have h1 : collectionsCoords c7proj.collections = [((2 : ℚ), 2044)] := by
    with_unfolding_all rfl
  have h2 : collectionsCoords c7proj.decrease_lod.2.collections = [((1 : ℚ), 1022)] := by
    with_unfolding_all rfl
  rw [h1, h2]
  intro hc
  have := (List.cons.injEq _ _ _ _ ▸ hc)
  norm_num at hc

/-- Witness for C7's amended theorem at the concrete projector. -/
theorem c7_witness :
    c7proj.current_lod = 0
    ∧ c7proj.decrease_lod.1 = Except.error "lod zero reached"
    ∧ collectionsCoords c7proj.decrease_lod.2.collections
        = (collectionsCoords c7proj.collections).map (fun c => (c.1 / 2, c.2 / 2)) := by
  have h0 : c7proj.current_lod = 0 := rfl
  have h := c7_decrease_lod_at_zero c7proj h0
  exact ⟨h0, h.1, h.2.2⟩

/-- C2 (amended): for every polygon-intersection backend, clipping a
multi-polygon clips each constituent polygon independently and
concatenates the non-empty results — but the result is always `Some`:
when every constituent clips to empty the code returns Some of an empty
multi-polygon, not None (src/src/mvt/clip_feature.rs lines 342-348). The
third conjunct records that a constituent clips to `None` exactly when the
external intersection is empty (lines 435-446). -/
theorem c2_multipolygon_clip (P : GeoPrims) (polys : List (GPolygon ℚ)) (rect : Rect ℚ) :
    Geometry.clip P (Geometry.multiPolygon polys) rect
      = some (Geometry.multiPolygon
          ((polys.filterMap (fun pg => GPolygon.clip P pg rect)).flatten))
    ∧ ((∀ pg ∈ polys, GPolygon.clip P pg rect = none) →
        Geometry.clip P (Geometry.multiPolygon polys) rect
          = some (Geometry.multiPolygon []))
    ∧ (∀ pg, GPolygon.clip P pg rect = none ↔ P.polygon_intersection rect.to_polygon pg = []) := by
  refine ⟨rfl, ?_, ?_⟩
  · intro hall
    have hnil : polys.filterMap (fun pg => GPolygon.clip P pg rect) = [] :=
      List.filterMap_eq_nil_iff.mpr hall
    simp [Geometry.clip, hnil]
  · intro pg
    unfold GPolygon.clip
    by_cases hempty : (P.polygon_intersection rect.to_polygon pg).isEmpty = true
    · rw [if_pos hempty]
      simp only [List.isEmpty_iff] at hempty
      simp [hempty]
    · rw [if_neg hempty]
      simp only [List.isEmpty_iff] at hempty
      simp [hempty]

/-- Counterexample to C2 as stated: a multi-polygon whose only constituent
lies strictly outside the rectangle (the geo_clipper intersection on these
disjoint shapes is empty, as the source's own unit test
clip_polygon_thats_outside_the_box_will_return_none documents) clips to
Some of an empty multi-polygon — not to None as claimed. -/
theorem c2_counterexample :
    Geometry.clip stubPrims (Geometry.multiPolygon [c2poly]) (Rect.new (0, 0) (5, 10))
      = some (Geometry.multiPolygon [])
    ∧ some (Geometry.multiPolygon ([] : List (GPolygon ℚ))) ≠ (none : Option (Geometry ℚ)) := by
  exact ⟨rfl, by simp⟩

/-- Witness for C2's amended theorem on the concrete all-outside input. -/
theorem c2_witness :
    Geometry.clip stubPrims (Geometry.multiPolygon [c2poly]) (Rect.new (0, 0) (5, 10))
      = some (Geometry.multiPolygon []) := by
  apply (c2_multipolygon_clip stubPrims [c2poly] (Rect.new (0, 0) (5, 10))).2.1
  intro pg hpg
  rw [List.mem_singleton] at hpg
  subst hpg
  rfl

/-- C8 (amended): PropertyValue equality holds exactly between two strings
with equal payloads or two numbers with equal payloads — two nulls, two
booleans and two arrays always compare unequal, as does every
cross-variant pair — and a partial-order comparison is returned only for
two numbers or two strings (src/src/feature/mod.rs lines 192-210). -/
theorem c8_property_value_eq_ord (a b : PropertyValue) :
    (PropertyValue.eq a b = true ↔
      (∃ s, a = PropertyValue.string s ∧ b = PropertyValue.string s)
      ∨ (∃ q, a = PropertyValue.number q ∧ b = PropertyValue.number q))
    ∧ ((PropertyValue.partial_cmp a b).isSome = true →
      (∃ x y, a = PropertyValue.number x ∧ b = PropertyValue.number y)
      ∨ (∃ x y, a = PropertyValue.string x ∧ b = PropertyValue.string y)) := by
  constructor
  · cases a <;> cases b <;> simp [PropertyValue.eq] <;> exact eq_comm
  · cases a <;> cases b <;> simp [PropertyValue.partial_cmp]

/-- Counterexample to C8 as stated: the claim says two nulls are equal
(and likewise booleans and arrays element-wise), but the source's
PartialEq sends every non-string non-number pairing to false. -/
theorem c8_counterexample :
    PropertyValue.eq PropertyValue.null PropertyValue.null = false
    ∧ PropertyValue.eq (PropertyValue.bool true) (PropertyValue.bool true) = false
    ∧ PropertyValue.eq (PropertyValue.array []) (PropertyValue.array []) = false := by
  exact ⟨rfl, rfl, rfl⟩

/-- Witness for C8's amended theorem at concrete values. -/
theorem c8_witness :
    PropertyValue.eq (PropertyValue.number 2) (PropertyValue.number 2) = true
    ∧ ((∃ x y, PropertyValue.number 1 = PropertyValue.number x
          ∧ PropertyValue.number 3 = PropertyValue.number y)
       ∨ (∃ x y, PropertyValue.number 1 = PropertyValue.string x
          ∧ PropertyValue.number 3 = PropertyValue.string y)) := by
  constructor
  · exact (c8_property_value_eq_ord (PropertyValue.number 2) (PropertyValue.number 2)).1.mpr
      (Or.inr ⟨2, rfl, rfl⟩)
  · exact (c8_property_value_eq_ord (PropertyValue.number 1) (PropertyValue.number 3)).2 rfl

/-- C3: create_tile uses the rectangle min = (col·4096, row·4096),
max = min + (4096, 4096) and hands every layer to to_layer, which clips
each feature against that rectangle, drops the Nones, translates by −min
and truncates coordinates toward zero (src/src/commands/mvt.rs lines
639-659 and src/src/feature/mod.rs lines 217-246, 299-312): a point inside
the rectangle survives at the truncated translated position, a point
outside is dropped. -/
theorem c3_create_tile (P : GeoPrims) (col row : ℕ) (name : String)
    (props : List (String × PropertyValue)) (px py : ℚ) :
    (∀ collections : Collections,
       (create_tile P col row collections).layers
         = collections.map (fun p => FeatureCollection.to_layer P p.2 p.1
             (⟨((col : ℚ) * 4096, (row : ℚ) * 4096),
               ((col : ℚ) * 4096 + 4096, (row : ℚ) * 4096 + 4096)⟩ : Rect ℚ)
             ((col : ℚ) * 4096, (row : ℚ) * 4096)))
    ∧ (((col : ℚ) * 4096 ≤ px ∧ px ≤ (col : ℚ) * 4096 + 4096
        ∧ (row : ℚ) * 4096 ≤ py ∧ py ≤ (row : ℚ) * 4096 + 4096) →
        create_tile P col row [(name, [⟨Geometry.point (px, py), props⟩])]
          = ⟨[⟨name, 4096, [⟨Geometry.point (ratTrunc (px - (col : ℚ) * 4096),
                ratTrunc (py - (row : ℚ) * 4096)), props⟩]⟩]⟩)
    ∧ (¬ ((col : ℚ) * 4096 ≤ px ∧ px ≤ (col : ℚ) * 4096 + 4096
        ∧ (row : ℚ) * 4096 ≤ py ∧ py ≤ (row : ℚ) * 4096 + 4096) →
        create_tile P col row [(name, [⟨Geometry.point (px, py), props⟩])]
          = ⟨[⟨name, 4096, []⟩]⟩) := by
  have hrect : Rect.new ((col : ℚ) * 4096, (row : ℚ) * 4096)
        ((col : ℚ) * 4096 + 4096, (row : ℚ) * 4096 + 4096)
      = (⟨((col : ℚ) * 4096, (row : ℚ) * 4096),
          ((col : ℚ) * 4096 + 4096, (row : ℚ) * 4096 + 4096)⟩ : Rect ℚ) := by
    have h1 : (col : ℚ) * 4096 ≤ (col : ℚ) * 4096 + 4096 := by linarith
    have h2 : (row : ℚ) * 4096 ≤ (row : ℚ) * 4096 + 4096 := by linarith
    simp [Rect.new, min_eq_left h1, min_eq_left h2, max_eq_right h1, max_eq_right h2]
  refine ⟨?_, ?_, ?_⟩
  · intro collections
    simp only [create_tile, DEFAULT_EXTENT, Nat.cast_ofNat]
    rw [hrect]
  · intro h
    have hclip : point_clip (px, py)
        (⟨((col : ℚ) * 4096, (row : ℚ) * 4096),
          ((col : ℚ) * 4096 + 4096, (row : ℚ) * 4096 + 4096)⟩ : Rect ℚ) = some (px, py) := by
      unfold point_clip
      rw [if_pos]
      exact ⟨h.1, h.2.1, h.2.2.1, h.2.2.2⟩
    simp only [create_tile, DEFAULT_EXTENT, Nat.cast_ofNat]
    rw [hrect]
    simp [FeatureCollection.to_layer, Feature.clip, Geometry.clip, hclip,
      Feature.with_offset, feature_to_mvt, Geometry.map_coords]
  · intro h
    have hclip : point_clip (px, py)
        (⟨((col : ℚ) * 4096, (row : ℚ) * 4096),
          ((col : ℚ) * 4096 + 4096, (row : ℚ) * 4096 + 4096)⟩ : Rect ℚ) = none := by
      unfold point_clip
      rw [if_neg]
      exact h
    simp only [create_tile, DEFAULT_EXTENT, Nat.cast_ofNat]
    rw [hrect]
    simp [FeatureCollection.to_layer, Feature.clip, Geometry.clip, hclip]

/-- Witness for C3: the spec's end-to-end scenario 6 — a point at pixel
(5000, 5000) appears in tile (1, 1) at tile-local (904, 904). -/
theorem c3_create_tile_witness :
    (((1 : ℕ) : ℚ) * 4096 ≤ 5000 ∧ (5000 : ℚ) ≤ ((1 : ℕ) : ℚ) * 4096 + 4096
      ∧ ((1 : ℕ) : ℚ) * 4096 ≤ 5000 ∧ (5000 : ℚ) ≤ ((1 : ℕ) : ℚ) * 4096 + 4096)
    ∧ create_tile stubPrims 1 1 [("foo", [⟨Geometry.point (5000, 5000), []⟩])]
        = ⟨[⟨"foo", 4096, [⟨Geometry.point ((904 : ℤ), 904), []⟩]⟩]⟩ := by
  have hcond : ((1 : ℕ) : ℚ) * 4096 ≤ 5000 ∧ (5000 : ℚ) ≤ ((1 : ℕ) : ℚ) * 4096 + 4096
      ∧ ((1 : ℕ) : ℚ) * 4096 ≤ 5000 ∧ (5000 : ℚ) ≤ ((1 : ℕ) : ℚ) * 4096 + 4096 := by
    norm_num
  refine ⟨hcond, ?_⟩
  have h := (c3_create_tile stubPrims 1 1 "foo" [] 5000 5000).2.1 hcond
  rw [h]
  have htr : ratTrunc ((5000 : ℚ) - ((1 : ℕ) : ℚ) * 4096) = 904 := by
    have : (5000 : ℚ) - ((1 : ℕ) : ℚ) * 4096 = ((904 : ℤ) : ℚ) := by push_cast; norm_num
    rw [ratTrunc, this]
    simp
  rw [htr]

/-- C4: evaluation of build_mounts at the failing input. The 3x4 DEM has
its only interior peak (elevation 9, all eight neighbours strictly lower,
elevation > 0) at column 1, row 2; the emitted point feature carries the
claimed properties (elevation 9, text "9") and the layer holds exactly
this one feature — but its position is (x(1), y(1)) = (1, 3), because
mounts.rs line 31 passes the column to both DEMRaster::x and DEMRaster::y,
whereas the claim (and spec section 9, which calls this a bug) requires
(x(col), y(row)) = (1, 2). -/
theorem c4_build_mounts_uses_column_for_y :
    alistGet (build_mounts c4dem 0 []) "mounts"
      = some [⟨Geometry.point (1, 3),
          [("elevation", PropertyValue.number 9), ("text", PropertyValue.string "9")]⟩]
    ∧ c4dem.x 1 = 1 ∧ c4dem.y 1 = 3 ∧ c4dem.y 2 = 2 ∧ ((3 : ℚ) ≠ 2) := by
  refine ⟨?_, ?_, ?_, ?_, by norm_num⟩
  · with_unfolding_all rfl
  · with_unfolding_all rfl
  · with_unfolding_all rfl
  · with_unfolding_all rfl

/-- C5 (amended): when at least one sample differs from the no_data
sentinel, build_contours generates thresholds at every integer meter from
the toward-zero truncation of the minimum through the toward-zero
truncation of the maximum inclusive (to_i64 truncates, commands/mvt.rs
line 534) — not from floor(min) through ceil(max) as claimed; when no such
sample exists it fails with "no values in DEM raster" (line 529). -/
theorem c5_contour_thresholds (data : List ℚ) (nd mn mx : ℚ)
    (hmn : list_min? (data.filter (fun x => x != nd)) = some mn)
    (hmx : list_max? (data.filter (fun x => x != nd)) = some mx) :
    contour_thresholds data nd = Except.ok (int_range_icc (ratTrunc mn) (ratTrunc mx))
    ∧ (∀ z : ℤ, z ∈ int_range_icc (ratTrunc mn) (ratTrunc mx) ↔
        ratTrunc mn ≤ z ∧ z ≤ ratTrunc mx)
    ∧ (∀ data2 : List ℚ, ∀ nd2 : ℚ, data2.filter (fun x => x != nd2) = [] →
        contour_thresholds data2 nd2 = Except.error "no values in DEM raster") := by
  refine ⟨?_, ?_, ?_⟩
  · simp only [contour_thresholds, hmn, hmx]
  · intro z
    exact mem_int_range_icc (ratTrunc mn) (ratTrunc mx) z
  · intro data2 nd2 hempty
    simp only [contour_thresholds, hempty]
    rfl

/-- Counterexample to C5 as stated: samples 1/2 and 13/2 (no no_data hits)
give code thresholds 0..6 — ceil(max) = 7 is claimed to be included but is
not. -/
theorem c5_counterexample :
    contour_thresholds [1 / 2, 13 / 2] (-9999) = Except.ok [0, 1, 2, 3, 4, 5, 6]
    ∧ ((7 : ℤ) ∉ ([0, 1, 2, 3, 4, 5, 6] : List ℤ))
    ∧ (⌈(13 / 2 : ℚ)⌉ = 7) ∧ (⌊(1 / 2 : ℚ)⌋ = 0) := by
  refine ⟨?_, by decide, ?_, ?_⟩
  · with_unfolding_all rfl
  · rw [Int.ceil_eq_iff]
    norm_num
  · rw [Int.floor_eq_iff]
    norm_num

/-- Witness for C5's amended theorem: the concrete sample list evaluates to
min 1/2, max 13/2, and the theorem yields thresholds 0..6. -/
theorem c5_witness :
    list_min? (([1 / 2, 13 / 2] : List ℚ).filter (fun x => x != (-9999 : ℚ))) = some (1 / 2)
    ∧ contour_thresholds [1 / 2, 13 / 2] (-9999)
        = Except.ok (int_range_icc (ratTrunc (1 / 2)) (ratTrunc (13 / 2))) := by
  have hmn : list_min? (([1 / 2, 13 / 2] : List ℚ).filter (fun x => x != (-9999 : ℚ)))
      = some (1 / 2) := by with_unfolding_all rfl
  have hmx : list_max? (([1 / 2, 13 / 2] : List ℚ).filter (fun x => x != (-9999 : ℚ)))
      = some (13 / 2) := by with_unfolding_all rfl
  exact ⟨hmn, (c5_contour_thresholds [1 / 2, 13 / 2] (-9999) (1 / 2) (13 / 2) hmn hmx).1⟩

/-- C10: as long as the DEM has a valid sample (so the threshold step does
not return early), build_contours inserts the four empty sub-layers
contours/05, contours/10, contours/50 and contours/100 even when the
marching-squares extraction fails — the error is returned after the
mutation, and no contours/01 layer is inserted on that path
(src/src/commands/mvt.rs lines 539-561). -/
theorem c10_build_contours_sublayers
    (extract : List ℚ → List ℤ → Except String (List (Feature ℚ)))
    (dem : DEMRaster) (off : ℚ) (ws : ℕ) (cols : Collections) (e : String) (ts : List ℤ)
    (hth : contour_thresholds dem.data dem.no_data_value = Except.ok ts)
    (herr : extract dem.data ts = Except.error e) :
    (build_contours extract dem off ws cols).1 = Except.error e
    ∧ alistGet (build_contours extract dem off ws cols).2 "contours/05" = some []
    ∧ alistGet (build_contours extract dem off ws cols).2 "contours/10" = some []
    ∧ alistGet (build_contours extract dem off ws cols).2 "contours/50" = some []
    ∧ alistGet (build_contours extract dem off ws cols).2 "contours/100" = some []
    ∧ alistGet (build_contours extract dem off ws cols).2 "contours/01"
        = alistGet cols "contours/01" := by
  have hfst : (build_contours extract dem off ws cols).1 = Except.error e := by
    simp only [build_contours, hth, herr, Except.map]
  have hsnd : (build_contours extract dem off ws cols).2
      = alistInsert (alistInsert (alistInsert (alistInsert cols
          "contours/05" []) "contours/10" []) "contours/50" []) "contours/100" [] := by
    simp only [build_contours, hth, herr, Except.map]
  rw [hsnd]
  refine ⟨hfst, ?_, ?_, ?_, ?_, ?_⟩
  · rw [alistGet_alistInsert, if_neg (by decide), alistGet_alistInsert, if_neg (by decide),
      alistGet_alistInsert, if_neg (by decide), alistGet_alistInsert, if_pos rfl]
  · rw [alistGet_alistInsert, if_neg (by decide), alistGet_alistInsert, if_neg (by decide),
      alistGet_alistInsert, if_pos rfl]
  · rw [alistGet_alistInsert, if_neg (by decide), alistGet_alistInsert, if_pos rfl]
  · rw [alistGet_alistInsert, if_pos rfl]
  · rw [alistGet_alistInsert, if_neg (by decide), alistGet_alistInsert, if_neg (by decide),
      alistGet_alistInsert, if_neg (by decide), alistGet_alistInsert, if_neg (by decide)]

/-- Witness for C10: a failing extraction on the 2x2 DEM mutates an empty
registry with the four empty sub-layers and still reports the error. -/
theorem c10_witness :
    (build_contours extractFail c10dem 0 2 []).1 = Except.error "marching squares failed"
    ∧ alistGet (build_contours extractFail c10dem 0 2 []).2 "contours/05" = some []
    ∧ alistGet (build_contours extractFail c10dem 0 2 []).2 "contours/01"
        = alistGet ([] : Collections) "contours/01" := by
  have hth : contour_thresholds c10dem.data c10dem.no_data_value
      = Except.ok (int_range_icc 0 7) := by with_unfolding_all rfl
  have h := c10_build_contours_sublayers extractFail c10dem 0 2 []
    "marching squares failed" (int_range_icc 0 7) hth rfl
  exact ⟨h.1, h.2.1, h.2.2.2.2.2⟩

/-- What a successful contour_layer_num parse tells about the name. -/
theorem contour_layer_num_some (name : String) (p : String × ℕ)
    (h : contour_layer_num name = some p) :
    p.1 = name ∧ name.toList.take 9 = ['c', 'o', 'n', 't', 'o', 'u', 'r', 's', '/'] := by
  simp only [contour_layer_num] at h
  by_cases hc : name.toList.take 9 = ['c', 'o', 'n', 't', 'o', 'u', 'r', 's', '/']
  · rw [if_pos hc] at h
    cases hp : parse_usize (String.mk (name.toList.drop 9)) with
    | none => rw [hp] at h; cases h
    | some i =>
      rw [hp] at h
      simp only [Option.map_some'] at h
      cases h
      exact ⟨rfl, hc⟩
  · rw [if_neg hc] at h
    cases h

/-- Every matched sub-layer name comes from the visible names, starts with
"contours/" and has a nonzero interval. -/
theorem matchedContours_src (names : List String) (q : String × ℕ)
    (hq : q ∈ matchedContours names) :
    q.1 ∈ names ∧ q.1.toList.take 9 = ['c', 'o', 'n', 't', 'o', 'u', 'r', 's', '/']
      ∧ q.2 ≠ 0 := by
  unfold matchedContours at hq
  have h1 := List.mem_filter.mp hq
  obtain ⟨nm, hnm, hcl⟩ := List.mem_filterMap.mp h1.1
  obtain ⟨hfst, htake⟩ := contour_layer_num_some nm q hcl
  refine ⟨hfst ▸ hnm, hfst ▸ htake, ?_⟩
  simpa using h1.2

/-- A matched sub-layer is never the base "contours" layer itself. -/
theorem matchedContours_ne_contours (names : List String) (q : String × ℕ)
    (hq : q ∈ matchedContours names) : q.1 ≠ "contours" := by
  intro hc
  have h := (matchedContours_src names q hq).2.1
  rw [hc] at h
  exact absurd h (by decide)

/-- Distinct visible names yield distinct matched sub-layer names. -/
theorem matchedContours_fst_nodup (names : List String) (h : names.Nodup) :
    ((matchedContours names).map Prod.fst).Nodup := by
  unfold matchedContours
  induction names with
  | nil => simp
  | cons nm rest ih =>
    rw [List.nodup_cons] at h
    simp only [List.filterMap_cons]
    cases hf : contour_layer_num nm with
    | none => exact ih h.2
    | some p =>
      obtain ⟨hfst, _⟩ := contour_layer_num_some nm p hf
      simp only [List.filter_cons]
      by_cases hz : p.2 ≠ 0
      · rw [if_pos (by simpa using hz), List.map_cons, List.nodup_cons]
        refine ⟨?_, ih h.2⟩
        intro hmem
        obtain ⟨q, hq, hq1⟩ := List.mem_map.mp hmem
        have hq2 : q ∈ matchedContours rest := hq
        have : q.1 ∈ rest := (matchedContours_src rest q hq2).1
        rw [hq1, hfst] at this
        exact h.1 this
      · rw [if_neg (by simpa using hz)]
        exact ih h.2

/-- Once every matched sub-layer is present, the imperative fold of
fill_contour_layers never panics and acts as the pure per-name append. -/
theorem fill_fold_ok (base : FeatureCollection ℚ) (ps : List (String × ℕ)) :
    ∀ c : Collections, (∀ p ∈ ps, (alistGet c p.1).isSome) →
    ps.foldl (fill_step base) (FillOutcome.ok, c)
      = (FillOutcome.ok, ps.foldl (fill_upd base) c) := by
  induction ps with
  | nil => intro c _; rfl
  | cons p ps ih =>
    intro c hpres
    have hp : (alistGet c p.1).isSome := hpres p (List.mem_cons_self p ps)
    have hstep : fill_step base (FillOutcome.ok, c) p = (FillOutcome.ok, fill_upd base c p) := by
      show (if (alistGet c p.1).isSome then
          (FillOutcome.ok, alistUpdate c p.1 (fun fc => fc ++ step_by base p.2))
        else (FillOutcome.panicked, c)) = (FillOutcome.ok, fill_upd base c p)
      rw [if_pos hp]
      rfl
    simp only [List.foldl_cons, hstep]
    exact ih (fill_upd base c p) (fun q hq => by
      unfold fill_upd
      rw [alistGet_isSome_alistUpdate]
      exact hpres q (List.mem_cons_of_mem p hq))

/-- The pure fold preserves which keys are present. -/
theorem fold_update_isSome (base : FeatureCollection ℚ) (ps : List (String × ℕ)) :
    ∀ (c : Collections) (k : String),
      (alistGet (ps.foldl (fill_upd base) c) k).isSome = (alistGet c k).isSome := by
  induction ps with
  | nil => intro c k; rfl
  | cons p ps ih =>
    intro c k
    simp only [List.foldl_cons]
    rw [ih]
    unfold fill_upd
    rw [alistGet_isSome_alistUpdate]

/-- The pure fold leaves every unmatched layer exactly as it was. -/
theorem fold_update_lookup_notmem (base : FeatureCollection ℚ) (ps : List (String × ℕ)) :
    ∀ (c : Collections) (k : String), k ∉ ps.map Prod.fst →
      alistGet (ps.foldl (fill_upd base) c) k = alistGet c k := by
  induction ps with
  | nil => intro c k _; rfl
  | cons p ps ih =>
    intro c k hk
    simp only [List.map_cons, List.mem_cons] at hk
    push_neg at hk
    simp only [List.foldl_cons]
    rw [ih _ k hk.2]
    unfold fill_upd
    rw [alistGet_alistUpdate, if_neg hk.1]

/-- The pure fold appends the stepped base features to each matched
sub-layer exactly once when the matched names are distinct. -/
theorem fold_update_lookup_mem (base : FeatureCollection ℚ) (ps : List (String × ℕ)) :
    ∀ (c : Collections) (k : String) (n : ℕ), (ps.map Prod.fst).Nodup → (k, n) ∈ ps →
      alistGet (ps.foldl (fill_upd base) c) k
        = (alistGet c k).map (fun fc => fc ++ step_by base n) := by
  induction ps with
  | nil => intro c k n _ h; cases h
  | cons p ps ih =>
    intro c k n hnd hmem
    rw [List.map_cons, List.nodup_cons] at hnd
    simp only [List.foldl_cons]
    rcases List.mem_cons.mp hmem with heq | htail
    · subst heq
      rw [fold_update_lookup_notmem base ps _ k (by simpa using hnd.1)]
      unfold fill_upd
      rw [alistGet_alistUpdate, if_pos rfl]
    · have hkps : k ∈ ps.map Prod.fst := List.mem_map.mpr ⟨(k, n), htail, rfl⟩
      have hpk : ¬ k = p.1 := fun hc => hnd.1 (hc ▸ hkps)
      rw [ih _ k n hnd.2 htail]
      unfold fill_upd
      rw [alistGet_alistUpdate, if_neg hpk]

/-- With the base layer present and every matched sub-layer present,
fill_contour_layers succeeds and equals the pure fold. -/
theorem fill_contour_layers_spec (names : List String) (collections : Collections)
    (base : FeatureCollection ℚ)
    (hbase : alistGet collections "contours" = some base)
    (hpres : ∀ p ∈ matchedContours names, (alistGet collections p.1).isSome) :
    fill_contour_layers names collections
      = (FillOutcome.ok, (matchedContours names).foldl (fill_upd base) collections) := by
  unfold fill_contour_layers
  rw [hbase]
  exact fill_fold_ok base (matchedContours names) collections hpres

/-- C6: given the visible layer names, fill_contour_layers appends, for
every name matching contours/<N> with N a positive integer, the base
"contours" features at indices 0, N, 2N, … in order into that sub-layer,
leaves the base layer unchanged, and — when no base "contours" layer
exists — returns the recoverable missing-base error having modified
nothing (src/src/commands/mvt.rs lines 694-720). Side conditions mirror
the call site: visible names are distinct registry keys, so every matched
sub-layer is present (commands/mvt.rs lines 618-620). -/
theorem c6_fill_contour_layers (names : List String) (collections : Collections)
    (base : FeatureCollection ℚ)
    (hnd : names.Nodup)
    (hbase : alistGet collections "contours" = some base)
    (hpres : ∀ p ∈ matchedContours names, (alistGet collections p.1).isSome) :
    (fill_contour_layers names collections).1 = FillOutcome.ok
    ∧ alistGet (fill_contour_layers names collections).2 "contours" = some base
    ∧ (∀ name n fc, (name, n) ∈ matchedContours names →
        alistGet collections name = some fc →
        alistGet (fill_contour_layers names collections).2 name = some (fc ++ step_by base n)
        ∧ 1 ≤ n ∧ ∀ j, (step_by base n)[j]? = base[j * n]?)
    ∧ (∀ c2 : Collections, alistGet c2 "contours" = none →
        fill_contour_layers names c2 = (FillOutcome.missingBase, c2)) := by
  have hfill := fill_contour_layers_spec names collections base hbase hpres
  have hnodup := matchedContours_fst_nodup names hnd
  refine ⟨by rw [hfill], ?_, ?_, ?_⟩
  · rw [hfill]
    show alistGet ((matchedContours names).foldl (fill_upd base) collections) "contours"
      = some base
    rw [fold_update_lookup_notmem]
    · exact hbase
    · intro hmem
      obtain ⟨q, hq, hq1⟩ := List.mem_map.mp hmem
      exact matchedContours_ne_contours names q hq hq1
  · intro name n fc hmem hfc
    have hn : n ≠ 0 := (matchedContours_src names (name, n) hmem).2.2
    refine ⟨?_, by omega, fun j => step_by_getElem? n (by omega) j base⟩
    rw [hfill]
    show alistGet ((matchedContours names).foldl (fill_upd base) collections) name
      = some (fc ++ step_by base n)
    rw [fold_update_lookup_mem base _ _ _ n hnodup hmem, hfc]
    rfl
  · intro c2 h2
    unfold fill_contour_layers
    rw [h2]

/-- Witness for C6: the spec's fill scenario — 11 base features, visible
contours/05; after the fill the sub-layer holds the base features at
indices 0, 5 and 10 in order and the base layer is unchanged. -/
theorem c6_witness :
    (fill_contour_layers ["contours/05", "foo"] c6cols).1 = FillOutcome.ok
    ∧ alistGet (fill_contour_layers ["contours/05", "foo"] c6cols).2 "contours" = some c6base
    ∧ alistGet (fill_contour_layers ["contours/05", "foo"] c6cols).2 "contours/05"
        = some [⟨Geometry.point (0, 0), []⟩, ⟨Geometry.point (5, 0), []⟩,
                ⟨Geometry.point (10, 0), []⟩] := by
  have hbase : alistGet c6cols "contours" = some c6base := rfl
  have hmatched : matchedContours ["contours/05", "foo"] = [("contours/05", 5)] := by
    with_unfolding_all rfl
  have hpres : ∀ p ∈ matchedContours ["contours/05", "foo"],
      (alistGet c6cols p.1).isSome := by
    intro p hp
    rw [hmatched, List.mem_singleton] at hp
    subst hp
    rfl
  have h := c6_fill_contour_layers ["contours/05", "foo"] c6cols c6base
    (by decide) hbase hpres
  refine ⟨h.1, h.2.1, ?_⟩
  have hm : ("contours/05", 5) ∈ matchedContours ["contours/05", "foo"] := by
    rw [hmatched]
    exact List.mem_singleton.mpr rfl
  have h3 := (h.2.2.1 "contours/05" 5 [] hm rfl).1
  rw [h3]
  with_unfolding_all rfl

/-- C9: fill_contour_layers modifies only the matched contours/<N>
sub-layers among the visible names — the base layer and every other layer
keep their features — and each matched sub-layer keeps its pre-existing
features with the copies appended after them, so a second call on the same
registry appends a second set of copies
(src/src/commands/mvt.rs lines 694-720). -/
theorem c9_fill_frame (names : List String) (collections : Collections)
    (base : FeatureCollection ℚ)
    (hnd : names.Nodup)
    (hbase : alistGet collections "contours" = some base)
    (hpres : ∀ p ∈ matchedContours names, (alistGet collections p.1).isSome) :
    (∀ k, k ∉ (matchedContours names).map Prod.fst →
        alistGet (fill_contour_layers names collections).2 k = alistGet collections k)
    ∧ (∀ name n fc, (name, n) ∈ matchedContours names →
        alistGet collections name = some fc →
        alistGet (fill_contour_layers names collections).2 name
          = some (fc ++ step_by base n))
    ∧ (∀ name n fc, (name, n) ∈ matchedContours names →
        alistGet collections name = some fc →
        alistGet (fill_contour_layers names
            (fill_contour_layers names collections).2).2 name
          = some (fc ++ step_by base n ++ step_by base n)) := by
  have hfill := fill_contour_layers_spec names collections base hbase hpres
  have hnodup := matchedContours_fst_nodup names hnd
  have hstate : (fill_contour_layers names collections).2
      = (matchedContours names).foldl (fill_upd base) collections := by rw [hfill]
  have hnotcontours : "contours" ∉ (matchedContours names).map Prod.fst := by
    intro hmem
    obtain ⟨q, hq, hq1⟩ := List.mem_map.mp hmem
    exact matchedContours_ne_contours names q hq hq1
  refine ⟨?_, ?_, ?_⟩
  · intro k hk
    rw [hstate, fold_update_lookup_notmem base _ _ _ hk]
  · intro name n fc hmem hfc
    rw [hstate, fold_update_lookup_mem base _ _ _ n hnodup hmem, hfc]
    rfl
  · intro name n fc hmem hfc
    have hbase2 : alistGet (fill_contour_layers names collections).2 "contours"
        = some base := by
      rw [hstate, fold_update_lookup_notmem base _ _ _ hnotcontours]
      exact hbase
    have hpres2 : ∀ p ∈ matchedContours names,
        (alistGet (fill_contour_layers names collections).2 p.1).isSome := by
      intro p hp
      rw [hstate, fold_update_isSome]
      exact hpres p hp
    have hfill2 := fill_contour_layers_spec names
      (fill_contour_layers names collections).2 base hbase2 hpres2
    have hstate2 : (fill_contour_layers names (fill_contour_layers names collections).2).2
        = (matchedContours names).foldl (fill_upd base)
            (fill_contour_layers names collections).2 := by rw [hfill2]
    have hfc2 : alistGet (fill_contour_layers names collections).2 name
        = some (fc ++ step_by base n) := by
      rw [hstate, fold_update_lookup_mem base _ _ _ n hnodup hmem, hfc]
      rfl
    rw [hstate2, fold_update_lookup_mem base _ _ _ n hnodup hmem, hfc2]
    rfl

/-- Witness for C9: unmatched layer "bar" is untouched, the pre-existing
feature of contours/05 stays in front of the copies, and a second call
appends a second set of copies. -/
theorem c9_witness :
    alistGet (fill_contour_layers ["contours/05", "bar"] c9cols).2 "bar"
        = alistGet c9cols "bar"
    ∧ alistGet (fill_contour_layers ["contours/05", "bar"] c9cols).2 "contours/05"
        = some ([⟨Geometry.point (99, 99), []⟩] ++ step_by c6base 5)
    ∧ alistGet (fill_contour_layers ["contours/05", "bar"]
          (fill_contour_layers ["contours/05", "bar"] c9cols).2).2 "contours/05"
        = some ([⟨Geometry.point (99, 99), []⟩] ++ step_by c6base 5 ++ step_by c6base 5) := by
  have hbase : alistGet c9cols "contours" = some c6base := rfl
  have hmatched : matchedContours ["contours/05", "bar"] = [("contours/05", 5)] := by
    with_unfolding_all rfl
  have hpres : ∀ p ∈ matchedContours ["contours/05", "bar"],
      (alistGet c9cols p.1).isSome := by
    intro p hp
    rw [hmatched, List.mem_singleton] at hp
    subst hp
    rfl
  have h := c9_fill_frame ["contours/05", "bar"] c9cols c6base (by decide) hbase hpres
  have hm : ("contours/05", 5) ∈ matchedContours ["contours/05", "bar"] := by
    rw [hmatched]
    exact List.mem_singleton.mpr rfl
  refine ⟨?_, ?_, ?_⟩
  · apply h.1
    rw [hmatched]
    decide
  · exact h.2.1 "contours/05" 5 [⟨Geometry.point (99, 99), []⟩] hm rfl
  · exact h.2.2 "contours/05" 5 [⟨Geometry.point (99, 99), []⟩] hm rfl

end MehUtils
